import Mathlib

/-!
Verification of the PhishGuard training pipeline specification against the
three training scripts (`url_cnn_training.py`, `sms_bilstm_training.py`,
`email_bert_training.py`).  Pure fragments of the scripts are embedded
shallowly as Lean functions; machine floats that only ever hold exact
decimal constants (learning rates, thresholds, class weights) are modelled
as rationals.
-/

namespace PhishGuard

/-! ## Character-level URL encoder (`url_cnn_training.py`, `preprocess_urls`) -/

/-- `MAX_URL_LENGTH = 200` from the URL script configuration block. -/
def MAX_URL_LENGTH : Nat := 200

/-- `VOCAB_SIZE = 128` from the URL script configuration block. -/
def URL_VOCAB_SIZE : Nat := 128

/-- Embedding of `preprocess_urls` on a single URL:
`seq = [min(ord(char), VOCAB_SIZE - 1) for char in url[:max_length]]`,
then right-pad with zeros when shorter than `max_length`. -/
def preprocess_url (url : String) : List Nat :=
  let seq := (url.toList.take MAX_URL_LENGTH).map (fun c => min c.toNat (URL_VOCAB_SIZE - 1))
  if seq.length < MAX_URL_LENGTH then
    seq ++ List.replicate (MAX_URL_LENGTH - seq.length) 0
  else
    seq

/-! ## Evaluation threshold (`(y_pred_proba > 0.5).astype(int)` in both the
SMS and URL scripts) -/

/-- Embedding of `(y_pred_proba > 0.5).astype(int)` applied to one predicted
probability. -/
def classify_probability (p : ℚ) : Int :=
  if p > 1/2 then 1 else 0

/-! ## Class weighting (`train_sms_model`, step 5) -/

/-- Embedding of the class-weight computation of `train_sms_model`:
weights are produced only when both classes are present, and then
`weight[c] = total / (2 * count[c])`. -/
def compute_class_weights (class_0_count class_1_count : Nat) : Option (ℚ × ℚ) :=
  if 0 < class_0_count ∧ 0 < class_1_count then
    some ((class_0_count + class_1_count : ℚ) / (2 * class_0_count),
          (class_0_count + class_1_count : ℚ) / (2 * class_1_count))
  else
    none

/-! ## URL dataset loading (`load_url_dataset`) -/

/-- Embedding of the column check of `load_url_dataset`:
`if 'url' not in df.columns or 'label' not in df.columns: raise ValueError(...)`. -/
def load_url_dataset_check (columns : List String) : Except String Unit :=
  if "url" ∈ columns ∧ "label" ∈ columns then
    Except.ok ()
  else
    Except.error "Dataset must have 'url' and 'label' columns"

/-- Embedding of pandas `astype(int)` applied to a string label: the cast
succeeds only when the string is a decimal integer literal, and no lexicon is
ever consulted. -/
def astype_int (s : String) : Option Int :=
  if s.toList ≠ [] ∧ s.toList.all (fun c => c.isDigit) then
    some (s.toList.foldl (fun n c => n * 10 + ((c.toNat : Int) - 48)) 0)
  else
    none

/-- Embedding of the URL label handling `df['label'].astype(int)`: a string
label is accepted only when it parses as an integer; no lexicon is applied. -/
def url_normalize_label (s : String) : Option Int :=
  astype_int s

/-! ## Label normalization (`load_sms_dataset` and `load_email_dataset`) -/

/-- Embedding of the `label_mapping` dictionary of `load_sms_dataset`:
`{'ham': 0, 'legitimate': 0, 'safe': 0, 'normal': 0, 'spam': 1,
'phishing': 1, 'phish': 1, 'malicious': 1, 'smishing': 1}`. -/
def sms_label_mapping (s : String) : Option Int :=
  if s = "ham" ∨ s = "legitimate" ∨ s = "safe" ∨ s = "normal" then
    some 0
  else if s = "spam" ∨ s = "phishing" ∨ s = "phish" ∨ s = "malicious" ∨ s = "smishing" then
    some 1
  else
    none

/-- Embedding of `.str.lower()`: lowercase every character. -/
def str_lower (s : String) : String :=
  String.mk (s.toList.map Char.toLower)

/-- Embedding of the SMS string-label path
`df[label_col].str.lower().map(label_mapping)` followed by `astype(int)`:
an unmapped string becomes `NaN` and the integer cast then fails, so the
result is `none` exactly when the lowercased label is outside the lexicon. -/
def sms_normalize_label (s : String) : Option Int :=
  sms_label_mapping (str_lower s)

/-- Embedding of the email string-label handling: `load_email_dataset` has no
lexicon at all and runs `df[label_col].astype(int)` directly. -/
def email_normalize_label (s : String) : Option Int :=
  astype_int s

/-! ## Compile-time optimizer configuration of the four model builders -/

/-- The compile-step choices recorded by each builder's `model.compile` call. -/
structure CompileConfig where
  learning_rate : ℚ
  loss : String
  metrics : List String

/-- `build_character_cnn_model` compiles with
`Adam(learning_rate=0.001)`, `binary_crossentropy`, accuracy/precision/recall. -/
def build_character_cnn_compile : CompileConfig :=
  { learning_rate := 1/1000
    loss := "binary_crossentropy"
    metrics := ["accuracy", "precision", "recall"] }

/-- `build_bilstm_model` compiles with `Adam(learning_rate=0.001)`,
`binary_crossentropy`, accuracy/precision/recall. -/
def build_bilstm_compile : CompileConfig :=
  { learning_rate := 1/1000
    loss := "binary_crossentropy"
    metrics := ["accuracy", "precision", "recall"] }

/-- `build_simplified_text_model` (the word-level long-form prose variant
exported for inference) compiles with `Adam(learning_rate=0.001)`,
`binary_crossentropy`, accuracy/precision/recall. -/
def build_simplified_text_compile : CompileConfig :=
  { learning_rate := 1/1000
    loss := "binary_crossentropy"
    metrics := ["accuracy", "precision", "recall"] }

/-- `build_distilbert_model` (the non-exported DistilBERT alternative)
compiles with `Adam(learning_rate=LEARNING_RATE)` where
`LEARNING_RATE = 2e-5`, sparse categorical cross-entropy, accuracy. -/
def build_distilbert_compile : CompileConfig :=
  { learning_rate := 2/100000
    loss := "sparse_categorical_crossentropy"
    metrics := ["accuracy"] }

/-! ## Dataset loading, row dropping and export metadata -/

/-- Embedding of `df.dropna(subset=[text_col, label_col])`: rows whose text
or label is missing are dropped before anything is counted. -/
def dropna (rows : List (Option String × Option Int)) : List (String × Int) :=
  rows.filterMap fun r =>
    match r with
    | (some t, some l) => some (t, l)
    | _ => none

/-- The text column returned by a loader, after dropping incomplete rows. -/
def load_texts (rows : List (Option String × Option Int)) : List String :=
  (dropna rows).map Prod.fst

/-- The label column returned by a loader, after dropping incomplete rows. -/
def load_labels (rows : List (Option String × Option Int)) : List Int :=
  (dropna rows).map Prod.snd

/-- The `dataset_info` object of the SMS metadata document, as the key/value
pairs written by `train_sms_model`. -/
def sms_dataset_info (messages : List String) (labels : List Int)
    (n_train n_test : Nat) : List (String × Int) :=
  [("total_samples", (messages.length : Int)),
   ("training_samples", (n_train : Int)),
   ("test_samples", (n_test : Int)),
   ("legitimate_count", (labels.count 0 : Int)),
   ("phishing_count", (labels.count 1 : Int))]

/-- The `dataset_info` object of the email metadata document, as the key/value
pairs written by `train_email_model`. -/
def email_dataset_info (emails : List String) (labels : List Int)
    (n_train n_test : Nat) : List (String × Int) :=
  [("total_samples", (emails.length : Int)),
   ("training_samples", (n_train : Int)),
   ("test_samples", (n_test : Int)),
   ("legitimate_count", (labels.count 0 : Int)),
   ("phishing_count", (labels.count 1 : Int))]

/-- The `dataset_info` object of the URL metadata document, as the key/value
pairs written by `train_url_model`: its negative-class field is named
`safe_count`, not `legitimate_count`. -/
def url_dataset_info (urls : List String) (labels : List Int)
    (n_train n_test : Nat) : List (String × Int) :=
  [("total_samples", (urls.length : Int)),
   ("training_samples", (n_train : Int)),
   ("test_samples", (n_test : Int)),
   ("safe_count", (labels.count 0 : Int)),
   ("phishing_count", (labels.count 1 : Int))]

/-! ## Column-name heuristics (`load_sms_dataset`, `load_email_dataset`) -/

/-- Does `needle` occur as a leading block of `hay`? (helper for Python's
substring test `kw in col`). -/
def chars_start_with : List Char → List Char → Bool
  | [], _ => true
  | _ :: _, [] => false
  | n :: ns, h :: hs => n == h && chars_start_with ns hs

/-- Does `needle` occur contiguously anywhere in `hay`? (Python's `in`). -/
def chars_contain (needle : List Char) : List Char → Bool
  | [] => needle.isEmpty
  | h :: hs => chars_start_with needle (h :: hs) || chars_contain needle hs

/-- Embedding of Python's `kw in col_lower` substring test. -/
def str_contains_sub (hay needle : String) : Bool :=
  chars_contain needle.toList hay.toList

/-- Text-column keywords of `load_sms_dataset`. -/
def sms_text_keywords : List String := ["sms", "text", "message", "content"]

/-- Label-column keywords of `load_sms_dataset` (note `spam` is included). -/
def sms_label_keywords : List String := ["label", "class", "target", "spam"]

/-- Text-column keywords of `load_email_dataset`. -/
def email_text_keywords : List String := ["email", "text", "content", "message"]

/-- Label-column keywords of `load_email_dataset` (no `spam`). -/
def email_label_keywords : List String := ["label", "class", "target"]

/-- Does a column name match a keyword list? The source lowercases the column
name and tests each keyword with Python's `in`. -/
def matches_any (keywords : List String) (col : String) : Bool :=
  keywords.any fun k => str_contains_sub (str_lower col) k

/-- Embedding of the column scan: iterate over the columns in order and keep
overwriting the match, so the last matching column wins. -/
def find_column (keywords : List String) (columns : List String) : Option String :=
  columns.foldl (fun acc c => if matches_any keywords c then some c else acc) none

/-- Embedding of the loader's schema step: find a text column and a label
column, or fail reporting the available column names. -/
def find_text_and_label (text_keywords label_keywords : List String)
    (columns : List String) : Except (List String) (String × String) :=
  match find_column text_keywords columns, find_column label_keywords columns with
  | some t, some l => Except.ok (t, l)
  | _, _ => Except.error columns

/-! ## Confusion matrix (`confusion_matrix(y_test, y_pred)` with the fixed
`rows=actual{0,1}, cols=predicted{0,1}` layout) -/

/-- One entry of the 2×2 confusion matrix: the number of test examples with
actual class `a` and predicted class `p`. -/
def cm_count (y_test y_pred : List Int) (a p : Int) : Nat :=
  (y_test.zip y_pred).countP fun r => r.1 == a && r.2 == p

/-- The 2×2 confusion matrix `[[TN, FP], [FN, TP]]`: rows indexed by the
actual class, columns by the predicted class. -/
structure ConfusionMatrix where
  tn : Nat
  fp : Nat
  fn : Nat
  tp : Nat

/-- Embedding of `confusion_matrix(y_test, y_pred)` for binary labels. -/
def confusion_matrix (y_test y_pred : List Int) : ConfusionMatrix :=
  { tn := cm_count y_test y_pred 0 0
    fp := cm_count y_test y_pred 0 1
    fn := cm_count y_test y_pred 1 0
    tp := cm_count y_test y_pred 1 1 }

/-! ## Word-level vocabulary fitting (spec §4.3)

Modelled from the spec: the word-level vocabulary construction of the
SequenceEncoder.  In the source this step happens inside the framework's
`keras.layers.TextVectorization` layer (called by `preprocess_sms` and
`preprocess_emails_for_lstm`), whose internals are not repository code; the
definitions below follow the spec's words: accumulate token frequencies over
the training partition, retain the top `vocab_size - 1` tokens by frequency
(ties broken by first-seen order), assign ids `1..V-1` in that order, and
reserve id `0` for padding and out-of-vocabulary tokens. -/

/-- The distinct tokens of the training text, in first-seen order. -/
def distinct_tokens (tokens : List String) : List String :=
  tokens.foldl (fun acc t => if t ∈ acc then acc else acc ++ [t]) []

/-- Frequency of one token over the training partition. -/
def token_freq (tokens : List String) (t : String) : Nat :=
  tokens.count t

/-- Insert a token into a list sorted by decreasing key, after all entries
whose key is at least as large (so earlier-inserted ties stay first). -/
def insert_by_freq (key : String → Nat) (x : String) : List String → List String
  | [] => [x]
  | y :: ys => if key y < key x then x :: y :: ys else y :: insert_by_freq key x ys

/-- Stable sort of the distinct tokens by decreasing frequency. -/
def sort_by_freq (key : String → Nat) (l : List String) : List String :=
  l.foldl (fun acc t => insert_by_freq key t acc) []

/-- Assign consecutive integer ids starting at `n`, in list order. -/
def assign_ids : Nat → List String → List (String × Nat)
  | _, [] => []
  | n, t :: ts => (t, n) :: assign_ids (n + 1) ts

/-- Modelled from the spec: fit the bounded vocabulary: the top
`vocab_size - 1` distinct tokens by frequency receive ids `1..V-1` in rank
order; id `0` stays reserved for padding and out-of-vocabulary tokens. -/
def fit_vocabulary (tokens : List String) (vocab_size : Nat) : List (String × Nat) :=
  assign_ids 1
    ((sort_by_freq (token_freq tokens) (distinct_tokens tokens)).take (vocab_size - 1))

/-- Encode one token: its id, or the reserved id `0` when unseen. -/
def encode_token (vocab : List (String × Nat)) (t : String) : Nat :=
  (vocab.lookup t).getD 0

/-- Truncate to length `L` and right-pad with the reserved id `0`. -/
def pad_to (L : Nat) (seq : List Nat) : List Nat :=
  let s := seq.take L
  s ++ List.replicate (L - s.length) 0

/-- Encode a token sequence into a fixed-length id sequence. -/
def word_encode (vocab : List (String × Nat)) (L : Nat) (tokens : List String) : List Nat :=
  pad_to L (tokens.map (encode_token vocab))

/-! ## Theorems -/

/-- C1: for every input URL string, `preprocess_urls` maps each character `c`
to `min(ord(c), 127)`, truncates to `MAX_URL_LENGTH = 200` characters,
right-pads with `0`, and the resulting sequence has length exactly 200
regardless of the input's length. -/
theorem preprocess_url_spec (url : String) :
    (preprocess_url url).length = MAX_URL_LENGTH ∧
    preprocess_url url =
      (url.toList.take MAX_URL_LENGTH).map (fun c => min c.toNat 127) ++
        List.replicate (MAX_URL_LENGTH - min MAX_URL_LENGTH url.toList.length) 0 := by
  have hlen : ((url.toList.take MAX_URL_LENGTH).map
      (fun c => min c.toNat (URL_VOCAB_SIZE - 1))).length = min MAX_URL_LENGTH url.toList.length := by
    simp [List.length_take]
  constructor
  · unfold preprocess_url
    by_cases h : ((url.toList.take MAX_URL_LENGTH).map
        (fun c => min c.toNat (URL_VOCAB_SIZE - 1))).length < MAX_URL_LENGTH
    · simp only [h, if_true, List.length_append, List.length_replicate]
      omega
    · simp only [h, if_false]
      omega
  · unfold preprocess_url
    by_cases h : ((url.toList.take MAX_URL_LENGTH).map
        (fun c => min c.toNat (URL_VOCAB_SIZE - 1))).length < MAX_URL_LENGTH
    · simp only [h, if_true]
      have : MAX_URL_LENGTH - ((url.toList.take MAX_URL_LENGTH).map
          (fun c => min c.toNat (URL_VOCAB_SIZE - 1))).length =
          MAX_URL_LENGTH - min MAX_URL_LENGTH url.toList.length := by omega
      rw [this]
      rfl
    · simp only [h, if_false]
      have hz : MAX_URL_LENGTH - min MAX_URL_LENGTH url.toList.length = 0 := by omega
      rw [hz]
      simp
      rfl

/-- C3 counterexample: an example whose predicted probability is exactly `0.5`
is classified as class `0`, not class `1`: the code compares with a strict
`> 0.5`. -/
theorem classify_probability_half_is_zero :
    classify_probability (1/2) = 0 ∧ classify_probability (1/2) ≠ 1 := by
  constructor
  · norm_num [classify_probability]
  · norm_num [classify_probability]

/-- C3 (amended): the evaluator assigns class `1` exactly when the predicted
probability strictly exceeds the fixed `0.5` threshold; a probability equal
to `0.5` yields class `0`. -/
theorem classify_probability_iff (p : ℚ) :
    (classify_probability p = 1 ↔ 1/2 < p) ∧ classify_probability (1/2) = 0 := by
  constructor
  · by_cases h : 1/2 < p <;> simp [classify_probability, h]
  · norm_num [classify_probability]

/-- C4: when both classes are present, `weight[c] = total / (2 * count[c])`,
the two weighted class masses agree (each class contributes `total / 2`),
and for counts (80 negative, 20 positive) the weights are
`{0: 0.625, 1: 2.5}`. -/
theorem compute_class_weights_spec (c0 c1 : Nat) (h0 : 0 < c0) (h1 : 0 < c1) :
    compute_class_weights c0 c1 =
      some ((c0 + c1 : ℚ) / (2 * c0), (c0 + c1 : ℚ) / (2 * c1)) ∧
    ((c0 + c1 : ℚ) / (2 * c0)) * c0 = (c0 + c1 : ℚ) / 2 ∧
    ((c0 + c1 : ℚ) / (2 * c1)) * c1 = (c0 + c1 : ℚ) / 2 ∧
    compute_class_weights 80 20 = some (5/8, 5/2) := by
  have hc0 : (c0 : ℚ) ≠ 0 := Nat.cast_ne_zero.mpr (Nat.pos_iff_ne_zero.mp h0)
  have hc1 : (c1 : ℚ) ≠ 0 := Nat.cast_ne_zero.mpr (Nat.pos_iff_ne_zero.mp h1)
  refine ⟨?_, ?_, ?_, ?_⟩
  · rw [compute_class_weights, if_pos ⟨h0, h1⟩]
  · field_simp
    ring
  · field_simp
    ring
  · rw [compute_class_weights, if_pos (by norm_num : (0 : Nat) < 80 ∧ (0 : Nat) < 20)]
    norm_num

/-- C4 witness: at counts (80, 20) the hypotheses hold and the weights
evaluate to `(5/8, 5/2)`, i.e. `{0: 0.625, 1: 2.5}`. -/
theorem compute_class_weights_spec_witness :
    (0 < 80 ∧ 0 < 20) ∧ compute_class_weights 80 20 = some (5/8, 5/2) :=
  ⟨⟨by norm_num, by norm_num⟩,
   (compute_class_weights_spec 80 20 (by norm_num) (by norm_num)).2.2.2⟩

/-- C10: the URL loader accepts a table exactly when it has columns named
exactly `url` and `label`: case variants and superstring names are rejected,
and no string-label lexicon is applied (`phishing` does not parse as an
integer label). -/
theorem load_url_dataset_check_spec :
    (∀ columns : List String,
      load_url_dataset_check columns = Except.ok () ↔
        "url" ∈ columns ∧ "label" ∈ columns) ∧
    load_url_dataset_check ["URL", "Label"] =
      Except.error "Dataset must have 'url' and 'label' columns" ∧
    load_url_dataset_check ["my_url", "label"] =
      Except.error "Dataset must have 'url' and 'label' columns" ∧
    url_normalize_label "phishing" = none ∧
    url_normalize_label "ham" = none := by
  refine ⟨?_, by rfl, by rfl, by rfl, by rfl⟩
  intro columns
  by_cases h : "url" ∈ columns ∧ "label" ∈ columns
  · simp [load_url_dataset_check, h]
  · simp only [load_url_dataset_check, if_neg h]
    constructor
    · intro hcontra
      exact absurd hcontra (by simp)
    · intro hc
      exact absurd hc h

/-- C5 counterexample: the email loader never consults the lexicon: on the
string label `"ham"` (which the lexicon maps to `0`) the email load fails
instead of producing label `0`, while the SMS loader maps it to `0`. -/
theorem email_label_ham_fails :
    email_normalize_label "ham" = none ∧
    email_normalize_label "ham" ≠ some 0 ∧
    sms_normalize_label "ham" = some 0 := by
  refine ⟨by rfl, ?_, by rfl⟩
  intro h
  exact Option.noConfusion h

/-- Helper for C5: exact characterization of the lexicon dictionary lookup. -/
theorem sms_label_mapping_eq (t : String) :
    (sms_label_mapping t = some 0 ↔
      t = "ham" ∨ t = "legitimate" ∨ t = "safe" ∨ t = "normal") ∧
    (sms_label_mapping t = some 1 ↔
      t = "spam" ∨ t = "phishing" ∨ t = "phish" ∨ t = "malicious" ∨
        t = "smishing") ∧
    (sms_label_mapping t = none ↔
      ¬ (t = "ham" ∨ t = "legitimate" ∨ t = "safe" ∨ t = "normal") ∧
      ¬ (t = "spam" ∨ t = "phishing" ∨ t = "phish" ∨ t = "malicious" ∨
          t = "smishing")) := by
  by_cases hA : t = "ham" ∨ t = "legitimate" ∨ t = "safe" ∨ t = "normal"
  · rcases hA with h | h | h | h <;> subst h <;> decide
  · by_cases hB : t = "spam" ∨ t = "phishing" ∨ t = "phish" ∨ t = "malicious" ∨
        t = "smishing"
    · rcases hB with h | h | h | h | h <;> subst h <;> decide
    · unfold sms_label_mapping
      rw [if_neg hA, if_neg hB]
      refine ⟨?_, ?_, ?_⟩
      · simp only [false_iff, reduceCtorEq]
        exact hA
      · simp only [false_iff, reduceCtorEq]
        exact hB
      · simp only [true_iff]
        exact ⟨hA, hB⟩

/-- C5 (amended): only the SMS loader normalizes string labels, mapping the
lowercased label through the fixed lexicon (`{ham,legitimate,safe,normal}→0`,
`{spam,phishing,phish,malicious,smishing}→1`) and failing on every unmapped
string; the email loader casts labels directly to int, so a non-numeric
string label fails there even when it belongs to the lexicon. -/
theorem label_normalization_spec (s : String) :
    (sms_normalize_label s = some 0 ↔
      str_lower s = "ham" ∨ str_lower s = "legitimate" ∨ str_lower s = "safe" ∨
        str_lower s = "normal") ∧
    (sms_normalize_label s = some 1 ↔
      str_lower s = "spam" ∨ str_lower s = "phishing" ∨ str_lower s = "phish" ∨
        str_lower s = "malicious" ∨ str_lower s = "smishing") ∧
    (sms_normalize_label s = none ↔
      ¬ (str_lower s = "ham" ∨ str_lower s = "legitimate" ∨
          str_lower s = "safe" ∨ str_lower s = "normal") ∧
      ¬ (str_lower s = "spam" ∨ str_lower s = "phishing" ∨
          str_lower s = "phish" ∨ str_lower s = "malicious" ∨
          str_lower s = "smishing")) ∧
    email_normalize_label "ham" = none ∧
    email_normalize_label "0" = some 0 ∧
    email_normalize_label "1" = some 1 := by
  obtain ⟨h0, h1, hn⟩ := sms_label_mapping_eq (str_lower s)
  exact ⟨h0, h1, hn, by rfl, by rfl, by rfl⟩

/-- C8 counterexample: the word-level long-form (prose) variant that is
compiled and exported, `build_simplified_text_model`, uses learning rate
`0.001`, not the fine-tuning rate `2e-5`. -/
theorem simplified_text_lr_counterexample :
    build_simplified_text_compile.learning_rate = 1/1000 ∧
    build_simplified_text_compile.learning_rate ≠ 2/100000 := by
  constructor
  · rfl
  · intro h
    rw [show build_simplified_text_compile.learning_rate = 1/1000 from rfl] at h
    norm_num at h

/-- C8 (amended): all three exported variants (long-form prose LSTM, SMS
Bi-LSTM, URL character CNN) compile with learning rate `1e-3` and binary
cross-entropy; the `2e-5` fine-tuning rate appears only in the alternative
non-exported DistilBERT builder. -/
theorem learning_rate_spec :
    build_simplified_text_compile.learning_rate = 1/1000 ∧
    build_bilstm_compile.learning_rate = 1/1000 ∧
    build_character_cnn_compile.learning_rate = 1/1000 ∧
    build_distilbert_compile.learning_rate = 2/100000 ∧
    build_simplified_text_compile.loss = "binary_crossentropy" ∧
    build_bilstm_compile.loss = "binary_crossentropy" ∧
    build_character_cnn_compile.loss = "binary_crossentropy" ∧
    build_distilbert_compile.loss = "sparse_categorical_crossentropy" :=
  ⟨rfl, rfl, rfl, rfl, rfl, rfl, rfl, rfl⟩

/-- C6 counterexample: the URL metadata's `dataset_info` has no
`legitimate_count` field: its negative-class count is keyed `safe_count`. -/
theorem url_dataset_info_counterexample :
    (url_dataset_info ["http://a.com"] [1] 1 0).lookup "legitimate_count" = none ∧
    (url_dataset_info ["http://a.com"] [1] 1 0).lookup "safe_count" = some 0 := by
  constructor <;> rfl

/-- C6 (amended): every modality's `dataset_info` record carries integer
fields `total_samples` (the number of records remaining after dropping rows
with missing text or label), `training_samples`, `test_samples` and two class
counts taken over the full loaded label sequence; the SMS and email documents
key the negative-class count `legitimate_count`, while the URL document keys
it `safe_count` and has no `legitimate_count` field. -/
theorem dataset_info_spec (rows : List (Option String × Option Int))
    (n_train n_test : Nat) :
    (load_texts rows).length = (dropna rows).length ∧
    ((sms_dataset_info (load_texts rows) (load_labels rows) n_train n_test).lookup
        "total_samples" = some ((load_texts rows).length : Int) ∧
      (sms_dataset_info (load_texts rows) (load_labels rows) n_train n_test).lookup
        "training_samples" = some (n_train : Int) ∧
      (sms_dataset_info (load_texts rows) (load_labels rows) n_train n_test).lookup
        "test_samples" = some (n_test : Int) ∧
      (sms_dataset_info (load_texts rows) (load_labels rows) n_train n_test).lookup
        "legitimate_count" = some ((load_labels rows).count 0 : Int) ∧
      (sms_dataset_info (load_texts rows) (load_labels rows) n_train n_test).lookup
        "phishing_count" = some ((load_labels rows).count 1 : Int)) ∧
    ((email_dataset_info (load_texts rows) (load_labels rows) n_train n_test).lookup
        "total_samples" = some ((load_texts rows).length : Int) ∧
      (email_dataset_info (load_texts rows) (load_labels rows) n_train n_test).lookup
        "legitimate_count" = some ((load_labels rows).count 0 : Int) ∧
      (email_dataset_info (load_texts rows) (load_labels rows) n_train n_test).lookup
        "phishing_count" = some ((load_labels rows).count 1 : Int)) ∧
    ((url_dataset_info (load_texts rows) (load_labels rows) n_train n_test).lookup
        "total_samples" = some ((load_texts rows).length : Int) ∧
      (url_dataset_info (load_texts rows) (load_labels rows) n_train n_test).lookup
        "safe_count" = some ((load_labels rows).count 0 : Int) ∧
      (url_dataset_info (load_texts rows) (load_labels rows) n_train n_test).lookup
        "phishing_count" = some ((load_labels rows).count 1 : Int) ∧
      (url_dataset_info (load_texts rows) (load_labels rows) n_train n_test).lookup
        "legitimate_count" = none) := by
  refine ⟨?_, ⟨rfl, rfl, rfl, rfl, rfl⟩, ⟨rfl, rfl, rfl⟩, ⟨rfl, rfl, rfl, rfl⟩⟩
  simp [load_texts]

/-- Helper for C7: when no column matches, the scan's fold returns its
accumulator unchanged. -/
theorem find_column_foldl_no_match (keywords : List String) (columns : List String)
    (acc : Option String)
    (h : ∀ c ∈ columns, matches_any keywords c = false) :
    columns.foldl (fun a c => if matches_any keywords c then some c else a) acc = acc := by
  induction columns generalizing acc with
  | nil => rfl
  | cons c cs ih =>
    have hc : matches_any keywords c = false := h c (List.mem_cons_self c cs)
    rw [List.foldl_cons, if_neg (by simp [hc])]
    exact ih acc fun x hx => h x (List.mem_cons_of_mem c hx)

/-- Helper for C7: a keyword scan with no matching column finds nothing. -/
theorem find_column_none (keywords : List String) (columns : List String)
    (h : ∀ c ∈ columns, matches_any keywords c = false) :
    find_column keywords columns = none :=
  find_column_foldl_no_match keywords columns none h

/-- C7: whenever no column name matches the text heuristic or none matches
the label heuristic, the loader fails with an error reporting the available
column names; in particular a table with columns `foo, bar` makes both the
SMS and the email loader fail listing `["foo", "bar"]`. -/
theorem schema_error_reports_columns (text_keywords label_keywords : List String)
    (columns : List String)
    (h : (∀ c ∈ columns, matches_any text_keywords c = false) ∨
         (∀ c ∈ columns, matches_any label_keywords c = false)) :
    find_text_and_label text_keywords label_keywords columns = Except.error columns ∧
    find_text_and_label sms_text_keywords sms_label_keywords ["foo", "bar"] =
      Except.error ["foo", "bar"] ∧
    find_text_and_label email_text_keywords email_label_keywords ["foo", "bar"] =
      Except.error ["foo", "bar"] := by
  refine ⟨?_, by rfl, by rfl⟩
  unfold find_text_and_label
  cases h with
  | inl h =>
    rw [find_column_none text_keywords columns h]
  | inr h =>
    rw [find_column_none label_keywords columns h]
    cases find_column text_keywords columns <;> rfl

/-- C7 witness: on the concrete table with columns `foo, bar` the SMS loader
fails listing exactly `["foo", "bar"]`. -/
theorem schema_error_reports_columns_witness :
    find_text_and_label sms_text_keywords sms_label_keywords ["foo", "bar"] =
      Except.error ["foo", "bar"] :=
  (schema_error_reports_columns sms_text_keywords sms_label_keywords ["foo", "bar"]
    (Or.inl (by decide))).1

/-- Helper for C9: over the zipped (actual, predicted) list with binary
entries, the four cell counts partition the list, and the actual-positive
row equals the count of actual positives. -/
theorem countP_zip_cells (l : List (Int × Int))
    (h : ∀ r ∈ l, (r.1 = 0 ∨ r.1 = 1) ∧ (r.2 = 0 ∨ r.2 = 1)) :
    (l.countP fun r => r.1 == 0 && r.2 == 0) +
      (l.countP fun r => r.1 == 0 && r.2 == 1) +
      (l.countP fun r => r.1 == 1 && r.2 == 0) +
      (l.countP fun r => r.1 == 1 && r.2 == 1) = l.length ∧
    (l.countP fun r => r.1 == 1 && r.2 == 0) +
      (l.countP fun r => r.1 == 1 && r.2 == 1) =
      (l.countP fun r => r.1 == 1) := by
  induction l with
  | nil => simp
  | cons r t ih =>
    have hr := h r (List.mem_cons_self r t)
    have ht : ∀ x ∈ t, (x.1 = 0 ∨ x.1 = 1) ∧ (x.2 = 0 ∨ x.2 = 1) :=
      fun x hx => h x (List.mem_cons_of_mem r hx)
    obtain ⟨ih1, ih2⟩ := ih ht
    obtain ⟨a, b⟩ := r
    have e00 : ((0 : Int) == 0) = true := rfl
    have e01 : ((0 : Int) == 1) = false := rfl
    have e10 : ((1 : Int) == 0) = false := rfl
    have e11 : ((1 : Int) == 1) = true := rfl
    rcases hr with ⟨ha | ha, hb | hb⟩ <;> subst ha <;> subst hb <;>
      simp only [List.countP_cons, e00, e01, e10, e11, Bool.true_and,
        Bool.false_and, Bool.and_true, Bool.and_false] <;>
      simp <;> try omega

/-- Helper for C9: projecting the zipped list onto the actual labels, the
count of actual-positive pairs is the count of positive labels. -/
theorem countP_zip_fst_one (ys ps : List Int) (hlen : ys.length = ps.length) :
    ((ys.zip ps).countP fun r => r.1 == 1) = ys.countP (fun a => a == 1) := by
  induction ys generalizing ps with
  | nil => simp
  | cons a as ih =>
    cases ps with
    | nil => simp at hlen
    | cons b bs =>
      simp only [List.zip_cons_cons, List.countP_cons]
      rw [ih bs (by simpa using hlen)]

/-- C9: with rows indexed by actual class and columns by predicted class,
the four confusion-matrix entries sum exactly to the number of test
examples, and `FN + TP` (the actual-positive row) equals the number of
positive labels in the test partition. -/
theorem confusion_matrix_spec (y_test y_pred : List Int)
    (hlen : y_test.length = y_pred.length)
    (hA : ∀ a ∈ y_test, a = 0 ∨ a = 1)
    (hP : ∀ p ∈ y_pred, p = 0 ∨ p = 1) :
    (confusion_matrix y_test y_pred).tn + (confusion_matrix y_test y_pred).fp +
      (confusion_matrix y_test y_pred).fn + (confusion_matrix y_test y_pred).tp
      = y_test.length ∧
    (confusion_matrix y_test y_pred).fn + (confusion_matrix y_test y_pred).tp
      = y_test.count 1 := by
  obtain ⟨h1, h2⟩ := countP_zip_cells (y_test.zip y_pred)
    (fun r hr => match r, hr with
      | (a, b), hr => ⟨hA a (List.of_mem_zip hr).1, hP b (List.of_mem_zip hr).2⟩)
  have hzlen : (y_test.zip y_pred).length = y_test.length := by
    rw [List.length_zip, hlen, Nat.min_self]
  constructor
  · show cm_count y_test y_pred 0 0 + cm_count y_test y_pred 0 1 +
        cm_count y_test y_pred 1 0 + cm_count y_test y_pred 1 1 = y_test.length
    unfold cm_count
    omega
  · show cm_count y_test y_pred 1 0 + cm_count y_test y_pred 1 1 = y_test.count 1
    unfold cm_count
    rw [h2, countP_zip_fst_one y_test y_pred hlen]
    rfl

/-- C9 witness: for actual labels `[0, 1, 1]` and predictions `[1, 1, 0]`
the confusion-matrix entries sum to the 3 test examples and the
actual-positive row sums to the 2 positive labels. -/
theorem confusion_matrix_spec_witness :
    (confusion_matrix [0, 1, 1] [1, 1, 0]).tn +
      (confusion_matrix [0, 1, 1] [1, 1, 0]).fp +
      (confusion_matrix [0, 1, 1] [1, 1, 0]).fn +
      (confusion_matrix [0, 1, 1] [1, 1, 0]).tp = ([0, 1, 1] : List Int).length ∧
    (confusion_matrix [0, 1, 1] [1, 1, 0]).fn +
      (confusion_matrix [0, 1, 1] [1, 1, 0]).tp = ([0, 1, 1] : List Int).count 1 :=
  confusion_matrix_spec [0, 1, 1] [1, 1, 0] (by rfl) (by decide) (by decide)

/-- Helper for C2: membership through frequency insertion. -/
theorem mem_insert_by_freq (key : String → Nat) (x b : String) (l : List String) :
    b ∈ insert_by_freq key x l ↔ b = x ∨ b ∈ l := by
  induction l with
  | nil => simp [insert_by_freq]
  | cons y ys ih =>
    unfold insert_by_freq
    by_cases h : key y < key x
    · rw [if_pos h]
      simp only [List.mem_cons]
    · rw [if_neg h]
      simp only [List.mem_cons, ih]
      tauto

/-- Helper for C2: frequency insertion preserves the decreasing-key order. -/
theorem pairwise_insert_by_freq (key : String → Nat) (x : String) (l : List String)
    (h : l.Pairwise fun a b => key b ≤ key a) :
    (insert_by_freq key x l).Pairwise fun a b => key b ≤ key a := by
  induction l with
  | nil => simp [insert_by_freq]
  | cons y ys ih =>
    rw [List.pairwise_cons] at h
    obtain ⟨hy, hys⟩ := h
    unfold insert_by_freq
    by_cases hk : key y < key x
    · rw [if_pos hk, List.pairwise_cons]
      constructor
      · intro b hb
        rcases List.mem_cons.mp hb with rfl | hb
        · exact Nat.le_of_lt hk
        · exact Nat.le_trans (hy b hb) (Nat.le_of_lt hk)
      · rw [List.pairwise_cons]
        exact ⟨hy, hys⟩
    · rw [if_neg hk, List.pairwise_cons]
      constructor
      · intro b hb
        rcases (mem_insert_by_freq key x b ys).mp hb with rfl | hb
        · exact Nat.le_of_not_lt hk
        · exact hy b hb
      · exact ih hys

/-- Helper for C2: membership in the insertion fold. -/
theorem mem_sort_foldl (key : String → Nat) (l : List String) :
    ∀ acc b, b ∈ l.foldl (fun acc t => insert_by_freq key t acc) acc ↔
      b ∈ acc ∨ b ∈ l := by
  induction l with
  | nil =>
    intro acc b
    simp
  | cons t ts ih =>
    intro acc b
    rw [List.foldl_cons, ih (insert_by_freq key t acc) b, mem_insert_by_freq]
    simp only [List.mem_cons]
    tauto

/-- Helper for C2: sorting permutes membership. -/
theorem mem_sort_by_freq (key : String → Nat) (l : List String) (b : String) :
    b ∈ sort_by_freq key l ↔ b ∈ l := by
  unfold sort_by_freq
  rw [mem_sort_foldl]
  simp

/-- Helper for C2: the insertion fold of a sorted accumulator is sorted. -/
theorem pairwise_sort_foldl (key : String → Nat) (l : List String) :
    ∀ acc, (acc.Pairwise fun a b => key b ≤ key a) →
      (l.foldl (fun acc t => insert_by_freq key t acc) acc).Pairwise
        fun a b => key b ≤ key a := by
  induction l with
  | nil =>
    intro acc h
    exact h
  | cons t ts ih =>
    intro acc h
    rw [List.foldl_cons]
    exact ih _ (pairwise_insert_by_freq key t acc h)

/-- Helper for C2: the ranked token list is sorted by decreasing frequency. -/
theorem pairwise_sort_by_freq (key : String → Nat) (l : List String) :
    (sort_by_freq key l).Pairwise fun a b => key b ≤ key a :=
  pairwise_sort_foldl key l [] List.Pairwise.nil

/-- Helper for C2: membership in the first-seen distinct scan. -/
theorem mem_distinct_foldl (l : List String) :
    ∀ acc b, b ∈ l.foldl (fun acc t => if t ∈ acc then acc else acc ++ [t]) acc ↔
      b ∈ acc ∨ b ∈ l := by
  induction l with
  | nil =>
    intro acc b
    simp
  | cons t ts ih =>
    intro acc b
    rw [List.foldl_cons]
    by_cases h : t ∈ acc
    · rw [if_pos h, ih acc b]
      constructor
      · rintro (h1 | h1)
        · exact Or.inl h1
        · exact Or.inr (List.mem_cons_of_mem t h1)
      · rintro (h1 | h1)
        · exact Or.inl h1
        · rcases List.mem_cons.mp h1 with rfl | h1
          · exact Or.inl h
          · exact Or.inr h1
    · rw [if_neg h, ih (acc ++ [t]) b]
      simp only [List.mem_append, List.mem_cons, List.mem_singleton]
      tauto

/-- Helper for C2: the distinct tokens are exactly the tokens seen. -/
theorem mem_distinct_tokens (l : List String) (b : String) :
    b ∈ distinct_tokens l ↔ b ∈ l := by
  unfold distinct_tokens
  rw [mem_distinct_foldl]
  simp

/-- Helper for C2: id assignment keeps the list length. -/
theorem length_assign_ids (n : Nat) (l : List String) :
    (assign_ids n l).length = l.length := by
  induction l generalizing n with
  | nil => rfl
  | cons t ts ih => simp [assign_ids, ih]

/-- Helper for C2: id assignment keeps the tokens, in order. -/
theorem map_fst_assign_ids (n : Nat) (l : List String) :
    (assign_ids n l).map Prod.fst = l := by
  induction l generalizing n with
  | nil => rfl
  | cons t ts ih => simp [assign_ids, ih]

/-- Helper for C2: the id at rank `i` is `n + i`. -/
theorem assign_ids_snd (n : Nat) (l : List String) :
    ∀ i (h : i < (assign_ids n l).length), ((assign_ids n l).get ⟨i, h⟩).2 = n + i := by
  induction l generalizing n with
  | nil =>
    intro i h
    simp [assign_ids] at h
  | cons t ts ih =>
    intro i h
    cases i with
    | zero => rfl
    | succ j =>
      have hlen : j < (assign_ids (n + 1) ts).length := by
        have : (assign_ids n (t :: ts)).length = (assign_ids (n + 1) ts).length + 1 := rfl
        omega
      have hrec := ih (n + 1) j hlen
      show ((assign_ids (n + 1) ts).get ⟨j, hlen⟩).2 = n + (j + 1)
      omega

/-- Helper for C2: lookup misses when no key matches. -/
theorem lookup_eq_none_of_no_key (v : List (String × Nat)) (t : String)
    (h : ∀ q ∈ v, q.1 ≠ t) : v.lookup t = none := by
  induction v with
  | nil => rfl
  | cons q qs ih =>
    obtain ⟨k, i⟩ := q
    have hk : k ≠ t := h (k, i) (List.mem_cons_self _ _)
    have hbeq : (t == k) = false := by
      rw [beq_eq_false_iff_ne]
      exact fun ht => hk ht.symm
    simp only [List.lookup, hbeq]
    exact ih fun q hq => h q (List.mem_cons_of_mem _ hq)

/-- Helper for C2 and C1's shared padding contract: padding always produces
exactly length `L`. -/
theorem pad_to_length (L : Nat) (seq : List Nat) : (pad_to L seq).length = L := by
  unfold pad_to
  have htake : (seq.take L).length = min L seq.length := by
    simp [List.length_take]
  simp only [List.length_append, List.length_replicate]
  omega

/-- C2: the fitted word-level vocabulary keeps at most `vocab_size - 1`
tokens; ids run `1..V-1` consecutively in rank order; every retained token's
frequency is at least that of any distinct token left out (top-`V-1` by
frequency); every token unseen in training encodes to the reserved id `0`;
and word-level encoding always yields length exactly `L`. -/
theorem fit_vocabulary_spec (tokens : List String) (vocab_size L : Nat) (t : String)
    (ht : t ∉ tokens) :
    encode_token (fit_vocabulary tokens vocab_size) t = 0 ∧
    (fit_vocabulary tokens vocab_size).length ≤ vocab_size - 1 ∧
    (∀ i (h : i < (fit_vocabulary tokens vocab_size).length),
      ((fit_vocabulary tokens vocab_size).get ⟨i, h⟩).2 = i + 1) ∧
    (∀ p ∈ fit_vocabulary tokens vocab_size, ∀ u ∈ distinct_tokens tokens,
      u ∉ (fit_vocabulary tokens vocab_size).map Prod.fst →
      token_freq tokens u ≤ token_freq tokens p.1) ∧
    (∀ ts : List String, (word_encode (fit_vocabulary tokens vocab_size) L ts).length = L) := by
  have hfit : fit_vocabulary tokens vocab_size =
      assign_ids 1 ((sort_by_freq (token_freq tokens) (distinct_tokens tokens)).take
        (vocab_size - 1)) := rfl
  refine ⟨?_, ?_, ?_, ?_, ?_⟩
  · unfold encode_token
    rw [hfit, lookup_eq_none_of_no_key]
    · rfl
    · intro q hq hqt
      have hq1 : q.1 ∈ (sort_by_freq (token_freq tokens) (distinct_tokens tokens)).take
          (vocab_size - 1) := by
        have hmap := List.mem_map_of_mem Prod.fst hq
        rwa [map_fst_assign_ids] at hmap
      have hq2 : q.1 ∈ sort_by_freq (token_freq tokens) (distinct_tokens tokens) :=
        List.take_subset _ _ hq1
      have hq3 : q.1 ∈ tokens :=
        (mem_distinct_tokens tokens q.1).mp ((mem_sort_by_freq _ _ q.1).mp hq2)
      rw [hqt] at hq3
      exact ht hq3
  · rw [hfit, length_assign_ids]
    exact List.length_take_le _ _
  · intro i h
    show ((assign_ids 1 ((sort_by_freq (token_freq tokens) (distinct_tokens tokens)).take
        (vocab_size - 1))).get ⟨i, h⟩).2 = i + 1
    have := assign_ids_snd 1 ((sort_by_freq (token_freq tokens)
        (distinct_tokens tokens)).take (vocab_size - 1)) i h
    omega
  · intro p hp u hu hnot
    have hp1 : p.1 ∈ (sort_by_freq (token_freq tokens) (distinct_tokens tokens)).take
        (vocab_size - 1) := by
      rw [hfit] at hp
      have hmap := List.mem_map_of_mem Prod.fst hp
      rwa [map_fst_assign_ids] at hmap
    have hu_ranked : u ∈ sort_by_freq (token_freq tokens) (distinct_tokens tokens) :=
      (mem_sort_by_freq _ _ u).mpr hu
    have hu_not_kept : u ∉ (sort_by_freq (token_freq tokens)
        (distinct_tokens tokens)).take (vocab_size - 1) := by
      intro hk
      apply hnot
      rw [hfit, map_fst_assign_ids]
      exact hk
    have hu_drop : u ∈ (sort_by_freq (token_freq tokens)
        (distinct_tokens tokens)).drop (vocab_size - 1) := by
      have hsplit := List.take_append_drop (vocab_size - 1)
        (sort_by_freq (token_freq tokens) (distinct_tokens tokens))
      rw [← hsplit] at hu_ranked
      rcases List.mem_append.mp hu_ranked with h1 | h1
      · exact absurd h1 hu_not_kept
      · exact h1
    have hpw := pairwise_sort_by_freq (token_freq tokens) (distinct_tokens tokens)
    rw [← List.take_append_drop (vocab_size - 1)
      (sort_by_freq (token_freq tokens) (distinct_tokens tokens))] at hpw
    exact (List.pairwise_append.mp hpw).2.2 p.1 hp1 u hu_drop
  · intro ts
    unfold word_encode
    exact pad_to_length L _

/-- C2 witness: with training tokens `a b a` and a configured cap of 3, the
unseen token `z` encodes to the reserved id `0` and the fitted vocabulary
keeps at most 2 tokens. -/
theorem fit_vocabulary_spec_witness :
    encode_token (fit_vocabulary ["a", "b", "a"] 3) "z" = 0 ∧
    (fit_vocabulary ["a", "b", "a"] 3).length ≤ 2 :=
  ⟨(fit_vocabulary_spec ["a", "b", "a"] 3 5 "z" (by decide)).1,
   (fit_vocabulary_spec ["a", "b", "a"] 3 5 "z" (by decide)).2.1⟩

end PhishGuard
